import Mathlib

/-!
Verification of the focker container launcher (src/main.go) against its
specification.  The Go program is shallowly embedded: every kernel-visible
operation the child bootstrap performs (hostname change, mkdir, tar
extraction, bind mounts, pivot_root, chdir, proc mount, unmount, process
spawning) is recorded as an `Event`, and the outcome of each fallible
syscall is supplied by an oracle (`World`).  Go control flow is translated
directly: `log.Fatal`/`exitIfError` terminate the process via `os.Exit`,
and Go's `os.Exit` does NOT run deferred functions, so deferred calls are
tracked separately (`BootState.deferred`) and are never appended to the
executed event trace.
-/

namespace Focker

/-- Result of running an external command through Go `exec.Cmd.Run`
(src/main.go:319): either the command could not be started at all
(`cmd.ProcessState` stays nil), or it ran and exited with a code in 0..255. -/
inductive SpawnResult
  | startFailed (msg : String)
  | exited (code : Nat)
deriving Repr, DecidableEq

/-- Kernel-visible / process-level operations performed by the program.
`spawnWait` is `exec.Command` + `cmd.Run()`: fork/exec a separate child
process and wait for it.  `execReplace` is exec-style process-image
substitution (e.g. `syscall.Exec`); the source never performs it, the
constructor exists so that the two behaviours can be distinguished. -/
inductive Event
  | sethostname (name : String)
  | mkdirAll (path : String)
  | tarExtract (src : String) (dest : String)
  | mountBind (source : String) (target : String)
  | mountProc (target : String)
  | pivotRootCall (newRoot : String) (putOld : String)
  | chdir (path : String)
  | unmount (target : String)
  | spawnWait (name : String) (args : List String)
  | execReplace (name : String) (args : List String)
deriving Repr, DecidableEq

/-- How the process terminates: `fatal` is `log.Fatal` (print diagnostic,
`os.Exit(1)`), `exit` is `os.Exit(code)` (src/main.go:324).  Both skip
deferred functions. -/
inductive Outcome
  | fatal (label : String)
  | exit (code : Int)
deriving Repr, DecidableEq

/-- Clone-flag constants from the Linux uapi, as used via Go `syscall`. -/
def CLONE_NEWNS : Nat := 0x00020000
def CLONE_NEWCGROUP : Nat := 0x02000000
def CLONE_NEWUTS : Nat := 0x04000000
def CLONE_NEWIPC : Nat := 0x08000000
def CLONE_NEWUSER : Nat := 0x10000000
def CLONE_NEWPID : Nat := 0x20000000
def CLONE_NEWNET : Nat := 0x40000000
def CLONE_NEWTIME : Nat := 0x00000080

/-- The fields of Go `syscall.SysProcAttr` that src/main.go:303-316 sets. -/
structure SysProcAttr where
  cloneflags : Nat
  unshareflags : Nat
deriving Repr, DecidableEq

/-- Oracle for the environment: the outcome of each fallible operation and
the stream of `rand.Intn(62)` values (`rand.Intn` returns a value in
`[0, 62)`, captured as `Fin 62`). -/
structure World where
  rng : Nat → Fin 62
  executablePath : String
  execOk : Bool
  sethostnameOk : String → Bool
  mkdirOk : String → Bool
  tarOk : String → String → Bool
  mountOk : String → String → Bool
  procMountOk : Bool
  pivotOk : Bool
  chdirOk : Bool
  spawn : String → List String → SpawnResult

/-- State threaded through the child bootstrap: the executed syscall trace,
and the deferred calls registered so far, listed in the order Go would run
them (later `defer` statements first). -/
structure BootState where
  events : List Event
  deferred : List Event
deriving Repr, DecidableEq

/-- Result of one whole `run` invocation.  `stderr` records what
`fmt.Fprintln(os.Stderr, err)` (src/main.go:321) printed; `deferred` is the
set of deferred calls registered by the time the process terminated — they
are never executed, because every path out of `run` goes through `os.Exit`
or `log.Fatal`, neither of which runs deferred functions in Go. -/
structure RunResult where
  events : List Event
  stderr : List String
  deferred : List Event
  procAttr : Option SysProcAttr
  outcome : Outcome
deriving Repr, DecidableEq

/-- Splits a character list at every occurrence of `sep`; models Go
`strings.Split` for a one-character separator (as used with ":" at
src/main.go:264).  `strings.Split("", sep) = [""]`. -/
def splitChar (sep : Char) : List Char → List (List Char)
  | [] => [[]]
  | c :: cs =>
    let r := splitChar sep cs
    if c == sep then [] :: r
    else
      match r with
      | [] => [[c]]
      | h :: t => (c :: h) :: t

/-- Go `strings.Split(s, ":")`. -/
def goSplitColon (s : String) : List String :=
  (splitChar ':' s.data).map String.mk

/-- Joins cleaned path components with "/". -/
def joinParts : List String → String
  | [] => ""
  | [p] => p
  | p :: ps => p ++ "/" ++ joinParts ps

/-- Go `filepath.Join(a, b)` for the relative, `..`-free paths this program
builds: concatenate and clean empty and "." components. -/
def filepathJoin (a b : String) : String :=
  joinParts
    ((((splitChar '/' a.data).map String.mk) ++ ((splitChar '/' b.data).map String.mk)).filter
      (fun p => !(decide (p = "") || decide (p = "."))))

/-- Go `strings.HasPrefix(arg, "-v=")` combined with
`strings.TrimPrefix(arg, "-v=")` (src/main.go:189-190): `some rest` when
`arg` starts with "-v=" (`rest` is the remainder), `none` otherwise. -/
def strTrimV (arg : String) : Option String :=
  match arg.data with
  | '-' :: 'v' :: '=' :: rest => some (String.mk rest)
  | _ => none

/-- The volume-filtering loop of `main` (src/main.go:184-195): every
argument starting with "-v=" is collected (stripped) into the volume list,
every other argument is kept, order preserved.  Returns
(volumes, remaining args). -/
def splitVolumeArgs : List String → List String × List String
  | [] => ([], [])
  | a :: rest =>
    let r := splitVolumeArgs rest
    match strTrimV a with
    | some v => (v :: r.1, r.2)
    | none => (r.1, a :: r.2)

/-- src/main.go:349 — the 62-character alphabet `[a-zA-Z0-9]`. -/
def randomStringChars : String :=
  "abcdefghijklmnopqrstuvwxyzABCDEFGHIJKLMNOPQRSTUVWXYZ0123456789"

/-- `availableRunes := []rune(randomStringChars)` (src/main.go:356). -/
def availableRunes : List Char := randomStringChars.data

/-- `randomString` (src/main.go:351-365): for `length < 1` the empty
string, otherwise `length` characters, each `availableRunes[rand.Intn(62)]`.
The rng oracle supplies the i-th `rand.Intn(62)` result. -/
def randomString (rng : Nat → Fin 62) (length : Int) : String :=
  if length < 1 then ""
  else String.mk ((List.range length.toNat).map (fun i => availableRunes.getD ((rng i) : Nat) 'a'))

/-- `containerId := "b-" + randomString(16)` (src/main.go:252). -/
def containerId (w : World) : String := "b-" ++ randomString w.rng 16

/-- `const containersDir` (src/main.go:165). -/
def containersDir : String := "./containers"

/-- `const rootFsTarball` (src/main.go:166). -/
def rootFsTarball : String := "./ubuntu-base-22.04-base-amd64.tar.gz"

/-- `rootfsDir := filepath.Join(containersDir, containerId)` (src/main.go:258). -/
def rootfsDirOf (w : World) : String := filepathJoin containersDir (containerId w)

/-- Go `os.ProcessState.ExitCode()` called on `cmd.ProcessState`
(src/main.go:324): `-1` when the process never started (`ProcessState` is
nil), otherwise the exit code. -/
def processStateExitCode : SpawnResult → Int
  | .startFailed _ => -1
  | .exited c => (c : Int)

/-- Go `exec.Cmd.Run` returns a non-nil error when the command failed to
start or exited nonzero; src/main.go:320-322 prints it to stderr. -/
def runErrLines : SpawnResult → List String
  | .startFailed msg => [msg]
  | .exited c => if c = 0 then [] else ["exit status " ++ toString c]

/-- The exit status the kernel actually reports for a terminated process.
`Outcome.exit code` records the Go-level argument of `os.Exit(code)`, but
Linux `exit_group` truncates the status to its low 8 bits, so the observed
status is `code mod 256`: in particular `os.Exit(-1)` — the
`ProcessState.ExitCode()` sentinel for a command that never started — is
observed as 255, the same status a child command exiting 255 reports.
`log.Fatal` is `os.Exit(1)`, observed as 1. -/
def observedStatus : Outcome → Nat
  | .exit code => (code % 256).toNat
  | .fatal _ => 1

/-- One fallible kernel operation guarded by `exitIfError`: the syscall is
attempted (recorded in the trace); on failure the process dies fatally with
the given label. -/
def bstep (ok : Bool) (e : Event) (label : String) (st : BootState) :
    Except (BootState × String) BootState :=
  let st := { st with events := st.events ++ [e] }
  if ok then .ok st else .error (st, label)

/-- Registers one `defer` statement's calls; a later `defer` runs before
earlier ones, so its block is prepended to the would-run order. -/
def registerDefer (block : List Event) (st : BootState) : BootState :=
  { st with deferred := block ++ st.deferred }

/-- `unzipRootFsTarball(dest, src)` (src/main.go:367-372): `os.MkdirAll(dest)`
then `tar -xzf src -C dest` via a child process, each failure fatal. -/
def unzipRootFsTarball (w : World) (dest src : String) (st : BootState) :
    Except (BootState × String) BootState :=
  match bstep (w.mkdirOk dest) (.mkdirAll dest) "unzipRootFsTarball(): os.MkdirAll()" st with
  | .error e => .error e
  | .ok st => bstep (w.tarOk src dest) (.tarExtract src dest) "unzipRootFsTarball(): tar cmd.Run()" st

/-- The volume-mapping loop (src/main.go:262-277): for each string, split on
":"; if not exactly two components, `log.Fatalf("invalid volume mapping: %s")`;
otherwise `os.MkdirAll(target)` then a recursive bind mount of the source
onto `filepath.Join(rootfsDir, parts[1])`; on success `parts[1]` is recorded
in the mounted-volume list. -/
def mountVolumes (w : World) (rootfsDir : String) :
    List String → BootState → List String → Except (BootState × String) (BootState × List String)
  | [], st, mounted => .ok (st, mounted)
  | v :: rest, st, mounted =>
    let parts := goSplitColon v
    if parts.length = 2 then
      let source := parts.getD 0 ""
      let target := filepathJoin rootfsDir (parts.getD 1 "")
      match bstep (w.mkdirOk target) (.mkdirAll target) "mkdir target" st with
      | .error e => .error e
      | .ok st =>
        match bstep (w.mountOk source target) (.mountBind source target) "mount volume" st with
        | .error e => .error e
        | .ok st => mountVolumes w rootfsDir rest st (mounted ++ [parts.getD 1 ""])
    else
      .error (st, "invalid volume mapping: " ++ v)

/-- `pivotRoot(newRoot)` (src/main.go:374-391): recursive self bind-mount of
`newRoot`, creation of `newRoot/.put_old`, the `pivot_root` syscall, then
`chdir("/")`; each failure fatal. -/
def pivotRoot (w : World) (newRoot : String) (st : BootState) :
    Except (BootState × String) BootState :=
  match bstep (w.mountOk newRoot newRoot) (.mountBind newRoot newRoot)
      "pivotRoot(): syscall.Mount" st with
  | .error e => .error e
  | .ok st =>
    let putOld := filepathJoin newRoot ".put_old"
    match bstep (w.mkdirOk putOld) (.mkdirAll putOld) "pivotRoot(): putold os.MkdirAll" st with
    | .error e => .error e
    | .ok st =>
      match bstep w.pivotOk (.pivotRootCall newRoot putOld) "pivotRoot(): pivot_root" st with
      | .error e => .error e
      | .ok st => bstep w.chdirOk (.chdir "/") "chdir" st

/-- The child-side bootstrap of `run` (src/main.go:251-300), up to but not
including the final command launch: set hostname to the generated identity,
extract the rootfs tarball into `containers/<id>`, mount each volume
(registering their deferred unmounts after the loop), pivot the root, mount
procfs at /proc (registering its deferred unmount). -/
def childSetup (w : World) (volumes : List String) : Except (BootState × String) BootState :=
  match bstep (w.sethostnameOk (containerId w)) (.sethostname (containerId w))
      "set hostname" { events := [], deferred := [] } with
  | .error e => .error e
  | .ok st =>
    match unzipRootFsTarball w (rootfsDirOf w) rootFsTarball st with
    | .error e => .error e
    | .ok st =>
      match mountVolumes w (rootfsDirOf w) volumes st [] with
      | .error e => .error e
      | .ok (st, mounted) =>
        let st := registerDefer (mounted.map Event.unmount) st
        match pivotRoot w (rootfsDirOf w) st with
        | .error e => .error e
        | .ok st =>
          match bstep w.procMountOk (.mountProc "/proc") "mount procfs" st with
          | .error e => .error e
          | .ok st => .ok (registerDefer [Event.unmount "/proc"] st)

/-- `run(args, volumes, isChild)` (src/main.go:207-325).  Empty `args` is an
immediate `log.Fatal`.  In child mode the command is `args[0]` with
arguments `args[1:]`; after the bootstrap the command is spawned with
`cmd.Run()` and the process exits via `os.Exit(cmd.ProcessState.ExitCode())`
— the deferred unmounts are skipped by `os.Exit`.  In parent mode the
program re-executes itself with `_child`, the re-serialized `-v=` volume
arguments and the original args, under clone flags
NEWUTS|NEWPID|NEWNS and unshare flag NEWNS. -/
def run (w : World) (args volumes : List String) (isChild : Bool) : RunResult :=
  match args with
  | [] =>
    { events := [], stderr := [], deferred := [], procAttr := none,
      outcome := .fatal "at least 1 argument is required" }
  | a0 :: rest =>
    if isChild then
      match childSetup w volumes with
      | .error (st, label) =>
        { events := st.events, stderr := [], deferred := st.deferred, procAttr := none,
          outcome := .fatal label }
      | .ok st =>
        let res := w.spawn a0 rest
        { events := st.events ++ [.spawnWait a0 rest],
          stderr := runErrLines res,
          deferred := st.deferred,
          procAttr := none,
          outcome := .exit (processStateExitCode res) }
    else
      if w.execOk then
        let commandArgs := "_child" :: (volumes.map (fun v => "-v=" ++ v)) ++ (a0 :: rest)
        let res := w.spawn w.executablePath commandArgs
        { events := [.spawnWait w.executablePath commandArgs],
          stderr := runErrLines res,
          deferred := [],
          procAttr := some
            { cloneflags := CLONE_NEWUTS ||| CLONE_NEWPID ||| CLONE_NEWNS,
              unshareflags := CLONE_NEWNS },
          outcome := .exit (processStateExitCode res) }
      else
        { events := [], stderr := [], deferred := [], procAttr := none,
          outcome := .fatal "os.Executable()" }

/-- The run/_child dispatch of `main` (src/main.go:177-198): split the
trailing command-line arguments into volumes and args, then call `run`. -/
def mainRunDispatch (w : World) (isChild : Bool) (argvRest : List String) : RunResult :=
  run w (splitVolumeArgs argvRest).2 (splitVolumeArgs argvRest).1 isChild


/-! ## Canonical traces and auxiliary predicates -/

def isBindMountEvt : Event → Bool
  | .mountBind _ _ => true
  | _ => false

def isUnmountEvt : Event → Bool
  | .unmount _ => true
  | _ => false

def isExecReplaceEvt : Event → Bool
  | .execReplace _ _ => true
  | _ => false

def volEvents (rootfsDir : String) : List String → List Event
  | [] => []
  | v :: rest =>
    Event.mkdirAll (filepathJoin rootfsDir ((goSplitColon v).getD 1 "")) ::
    Event.mountBind ((goSplitColon v).getD 0 "") (filepathJoin rootfsDir ((goSplitColon v).getD 1 "")) ::
    volEvents rootfsDir rest

def mountedTargets (vols : List String) : List String :=
  vols.map (fun v => (goSplitColon v).getD 1 "")

def pivotEvents (newRoot : String) : List Event :=
  [Event.mountBind newRoot newRoot,
   Event.mkdirAll (filepathJoin newRoot ".put_old"),
   Event.pivotRootCall newRoot (filepathJoin newRoot ".put_old"),
   Event.chdir "/"]

def setupEvents (w : World) (vols : List String) : List Event :=
  Event.sethostname (containerId w) ::
  Event.mkdirAll (rootfsDirOf w) ::
  Event.tarExtract rootFsTarball (rootfsDirOf w) ::
  (volEvents (rootfsDirOf w) vols ++ (pivotEvents (rootfsDirOf w) ++ [Event.mountProc "/proc"]))

def deferredOf (vols : List String) : List Event :=
  Event.unmount "/proc" :: (mountedTargets vols).map Event.unmount

def WorldOk (w : World) : Prop :=
  (∀ s, w.sethostnameOk s = true) ∧ (∀ p, w.mkdirOk p = true) ∧
  (∀ s d, w.tarOk s d = true) ∧ (∀ s t, w.mountOk s t = true) ∧
  w.procMountOk = true ∧ w.pivotOk = true ∧ w.chdirOk = true ∧ w.execOk = true

def okWorld (spawn : String → List String → SpawnResult) : World :=
  { rng := fun _ => 0
  , executablePath := "/usr/local/bin/focker"
  , execOk := true
  , sethostnameOk := fun _ => true
  , mkdirOk := fun _ => true
  , tarOk := fun _ _ => true
  , mountOk := fun _ _ => true
  , procMountOk := true
  , pivotOk := true
  , chdirOk := true
  , spawn := spawn }

theorem okWorld_ok (spawn : String → List String → SpawnResult) : WorldOk (okWorld spawn) :=
  ⟨fun _ => rfl, fun _ => rfl, fun _ _ => rfl, fun _ _ => rfl, rfl, rfl, rfl, rfl⟩

/-! ## Step lemmas -/

theorem prefix_append_mono {α : Type} (l : List α) {x y : List α} (h : x <+: y) :
    l ++ x <+: l ++ y := by
  obtain ⟨t, rfl⟩ := h
  exact ⟨t, List.append_assoc l x t⟩

theorem bstep_true (e : Event) (label : String) (st : BootState) :
    bstep true e label st = .ok { st with events := st.events ++ [e] } := rfl

theorem bstep_false (e : Event) (label : String) (st : BootState) :
    bstep false e label st = .error ({ st with events := st.events ++ [e] }, label) := rfl

theorem unzip_ok (w : World) (dest src : String) (h1 : w.mkdirOk dest = true)
    (h2 : w.tarOk src dest = true) (st : BootState) :
    unzipRootFsTarball w dest src st =
      .ok { st with events := st.events ++ [.mkdirAll dest, .tarExtract src dest] } := by
  simp [unzipRootFsTarball, bstep, h1, h2]

theorem unzip_mkdir_fail (w : World) (dest src : String) (h1 : w.mkdirOk dest = false)
    (st : BootState) :
    unzipRootFsTarball w dest src st =
      .error ({ st with events := st.events ++ [.mkdirAll dest] },
              "unzipRootFsTarball(): os.MkdirAll()") := by
  simp [unzipRootFsTarball, bstep, h1]

theorem unzip_tar_fail (w : World) (dest src : String) (h1 : w.mkdirOk dest = true)
    (h2 : w.tarOk src dest = false) (st : BootState) :
    unzipRootFsTarball w dest src st =
      .error ({ st with events := st.events ++ [.mkdirAll dest, .tarExtract src dest] },
              "unzipRootFsTarball(): tar cmd.Run()") := by
  simp [unzipRootFsTarball, bstep, h1, h2]

theorem unzip_spec (w : World) (dest src : String) (st : BootState) :
    (∃ st2, unzipRootFsTarball w dest src st = .ok st2 ∧
        st2.events = st.events ++ [Event.mkdirAll dest, Event.tarExtract src dest] ∧
        st2.deferred = st.deferred) ∨
    (∃ st2 l pre, unzipRootFsTarball w dest src st = .error (st2, l) ∧
        st2.events = st.events ++ pre ∧
        pre <+: [Event.mkdirAll dest, Event.tarExtract src dest] ∧
        st2.deferred = st.deferred) := by
  cases hm : w.mkdirOk dest with
  | false =>
    exact Or.inr ⟨_, _, [Event.mkdirAll dest], unzip_mkdir_fail w dest src hm st, rfl,
      ⟨[Event.tarExtract src dest], rfl⟩, rfl⟩
  | true =>
    cases ht : w.tarOk src dest with
    | false =>
      exact Or.inr ⟨_, _, [Event.mkdirAll dest, Event.tarExtract src dest],
        unzip_tar_fail w dest src hm ht st, rfl, List.prefix_rfl, rfl⟩
    | true =>
      exact Or.inl ⟨_, unzip_ok w dest src hm ht st, rfl, rfl⟩

theorem pivotRoot_ok (w : World) (newRoot : String)
    (h1 : w.mountOk newRoot newRoot = true)
    (h2 : w.mkdirOk (filepathJoin newRoot ".put_old") = true)
    (h3 : w.pivotOk = true) (h4 : w.chdirOk = true) (st : BootState) :
    pivotRoot w newRoot st = .ok { st with events := st.events ++ pivotEvents newRoot } := by
  simp [pivotRoot, bstep, h1, h2, h3, h4, pivotEvents]

theorem pivotRoot_spec (w : World) (newRoot : String) (st : BootState) :
    (∃ st2, pivotRoot w newRoot st = .ok st2 ∧
        st2.events = st.events ++ pivotEvents newRoot ∧ st2.deferred = st.deferred) ∨
    (∃ st2 l pre, pivotRoot w newRoot st = .error (st2, l) ∧
        st2.events = st.events ++ pre ∧ pre <+: pivotEvents newRoot ∧
        st2.deferred = st.deferred) := by
  cases hm : w.mountOk newRoot newRoot with
  | false =>
    have h : pivotRoot w newRoot st =
        .error ({ st with events := st.events ++ [Event.mountBind newRoot newRoot] },
                "pivotRoot(): syscall.Mount") := by
      simp [pivotRoot, bstep, hm]
    exact Or.inr ⟨_, _, [Event.mountBind newRoot newRoot], h, rfl,
      ⟨_, rfl⟩, rfl⟩
  | true =>
    cases hk : w.mkdirOk (filepathJoin newRoot ".put_old") with
    | false =>
      have h : pivotRoot w newRoot st =
          .error ({ st with events := st.events ++
              [Event.mountBind newRoot newRoot,
               Event.mkdirAll (filepathJoin newRoot ".put_old")] },
              "pivotRoot(): putold os.MkdirAll") := by
        simp [pivotRoot, bstep, hm, hk]
      exact Or.inr ⟨_, _, _, h, rfl, ⟨_, rfl⟩, rfl⟩
    | true =>
      cases hp : w.pivotOk with
      | false =>
        have h : pivotRoot w newRoot st =
            .error ({ st with events := st.events ++
                [Event.mountBind newRoot newRoot,
                 Event.mkdirAll (filepathJoin newRoot ".put_old"),
                 Event.pivotRootCall newRoot (filepathJoin newRoot ".put_old")] },
                "pivotRoot(): pivot_root") := by
          simp [pivotRoot, bstep, hm, hk, hp]
        exact Or.inr ⟨_, _, _, h, rfl, ⟨_, rfl⟩, rfl⟩
      | true =>
        cases hc : w.chdirOk with
        | false =>
          have h : pivotRoot w newRoot st =
              .error ({ st with events := st.events ++ pivotEvents newRoot }, "chdir") := by
            simp [pivotRoot, bstep, hm, hk, hp, hc, pivotEvents]
          exact Or.inr ⟨_, _, pivotEvents newRoot, h, rfl, List.prefix_rfl, rfl⟩
        | true =>
          exact Or.inl ⟨_, pivotRoot_ok w newRoot hm hk hp hc st, rfl, rfl⟩

theorem mountVolumes_cons_ok (w : World) (root v : String) (rest : List String)
    (st : BootState) (acc : List String)
    (hv : (goSplitColon v).length = 2)
    (hmk : w.mkdirOk (filepathJoin root ((goSplitColon v).getD 1 "")) = true)
    (hmt : w.mountOk ((goSplitColon v).getD 0 "") (filepathJoin root ((goSplitColon v).getD 1 "")) = true) :
    mountVolumes w root (v :: rest) st acc =
      mountVolumes w root rest
        { st with events := st.events ++
            [Event.mkdirAll (filepathJoin root ((goSplitColon v).getD 1 "")),
             Event.mountBind ((goSplitColon v).getD 0 "") (filepathJoin root ((goSplitColon v).getD 1 ""))] }
        (acc ++ [(goSplitColon v).getD 1 ""]) := by
  simp only [mountVolumes, hv, if_true, bstep, hmk, ite_true, hmt]
  simp

theorem mountVolumes_cons_badfmt (w : World) (root v : String) (rest : List String)
    (st : BootState) (acc : List String)
    (hv : (goSplitColon v).length ≠ 2) :
    mountVolumes w root (v :: rest) st acc =
      .error (st, "invalid volume mapping: " ++ v) := by
  simp [mountVolumes, hv]

theorem mountVolumes_cons_mkfail (w : World) (root v : String) (rest : List String)
    (st : BootState) (acc : List String)
    (hv : (goSplitColon v).length = 2)
    (hmk : w.mkdirOk (filepathJoin root ((goSplitColon v).getD 1 "")) = false) :
    mountVolumes w root (v :: rest) st acc =
      .error ({ st with events := st.events ++
          [Event.mkdirAll (filepathJoin root ((goSplitColon v).getD 1 ""))] },
        "mkdir target") := by
  simp only [mountVolumes, hv, if_true, bstep, hmk, ite_false]
  simp

theorem mountVolumes_cons_mtfail (w : World) (root v : String) (rest : List String)
    (st : BootState) (acc : List String)
    (hv : (goSplitColon v).length = 2)
    (hmk : w.mkdirOk (filepathJoin root ((goSplitColon v).getD 1 "")) = true)
    (hmt : w.mountOk ((goSplitColon v).getD 0 "") (filepathJoin root ((goSplitColon v).getD 1 "")) = false) :
    mountVolumes w root (v :: rest) st acc =
      .error ({ st with events := st.events ++
          [Event.mkdirAll (filepathJoin root ((goSplitColon v).getD 1 "")),
           Event.mountBind ((goSplitColon v).getD 0 "") (filepathJoin root ((goSplitColon v).getD 1 ""))] },
        "mount volume") := by
  simp only [mountVolumes, hv, if_true, bstep, hmk, ite_true, hmt]
  simp

theorem mountVolumes_ok (w : World) (root : String)
    (hmk : ∀ p, w.mkdirOk p = true) (hmt : ∀ s t, w.mountOk s t = true) :
    ∀ (vols : List String), (∀ v ∈ vols, (goSplitColon v).length = 2) →
      ∀ (st : BootState) (acc : List String),
      mountVolumes w root vols st acc =
        .ok ({ st with events := st.events ++ volEvents root vols }, acc ++ mountedTargets vols)
  | [], _, st, acc => by simp [mountVolumes, volEvents, mountedTargets]
  | v :: rest, h, st, acc => by
    have hv : (goSplitColon v).length = 2 := h v (List.mem_cons_self v rest)
    rw [mountVolumes_cons_ok w root v rest st acc hv (hmk _) (hmt _ _),
      mountVolumes_ok w root hmk hmt rest (fun x hx => h x (List.mem_cons_of_mem v hx))]
    simp [volEvents, mountedTargets]

theorem mountVolumes_bad (w : World) (root : String)
    (hmk : ∀ p, w.mkdirOk p = true) (hmt : ∀ s t, w.mountOk s t = true) (bad : String)
    (hbad : (goSplitColon bad).length ≠ 2) :
    ∀ (good : List String), (∀ v ∈ good, (goSplitColon v).length = 2) →
      ∀ (rest : List String) (st : BootState) (acc : List String),
      mountVolumes w root (good ++ bad :: rest) st acc =
        .error ({ st with events := st.events ++ volEvents root good },
                "invalid volume mapping: " ++ bad)
  | [], _, rest, st, acc => by
    rw [List.nil_append, mountVolumes_cons_badfmt w root bad rest st acc hbad]
    simp [volEvents]
  | v :: good, h, rest, st, acc => by
    have hv : (goSplitColon v).length = 2 := h v (List.mem_cons_self v good)
    rw [List.cons_append, mountVolumes_cons_ok w root v _ st acc hv (hmk _) (hmt _ _),
      mountVolumes_bad w root hmk hmt bad hbad good
        (fun x hx => h x (List.mem_cons_of_mem v hx)) rest]
    simp [volEvents]

theorem mountVolumes_spec (w : World) (root : String) :
    ∀ (vols : List String) (st : BootState) (acc : List String),
    (∃ st2 m, mountVolumes w root vols st acc = .ok (st2, m) ∧
        st2.events = st.events ++ volEvents root vols ∧ st2.deferred = st.deferred ∧
        m = acc ++ mountedTargets vols) ∨
    (∃ st2 l pre, mountVolumes w root vols st acc = .error (st2, l) ∧
        st2.events = st.events ++ pre ∧ pre <+: volEvents root vols ∧
        st2.deferred = st.deferred)
  | [], st, acc => by
    exact Or.inl ⟨st, acc, by simp [mountVolumes], by simp [volEvents], rfl,
      by simp [mountedTargets]⟩
  | v :: rest, st, acc => by
    by_cases hv : (goSplitColon v).length = 2
    · cases hmk : w.mkdirOk (filepathJoin root ((goSplitColon v).getD 1 "")) with
      | false =>
        refine Or.inr ⟨_, _, [Event.mkdirAll (filepathJoin root ((goSplitColon v).getD 1 ""))],
          mountVolumes_cons_mkfail w root v rest st acc hv hmk, rfl, ?_, rfl⟩
        exact ⟨Event.mountBind ((goSplitColon v).getD 0 "")
            (filepathJoin root ((goSplitColon v).getD 1 "")) :: volEvents root rest,
          by simp [volEvents]⟩
      | true =>
        cases hmt : w.mountOk ((goSplitColon v).getD 0 "")
            (filepathJoin root ((goSplitColon v).getD 1 "")) with
        | false =>
          refine Or.inr ⟨_, _,
            [Event.mkdirAll (filepathJoin root ((goSplitColon v).getD 1 "")),
             Event.mountBind ((goSplitColon v).getD 0 "")
               (filepathJoin root ((goSplitColon v).getD 1 ""))],
            mountVolumes_cons_mtfail w root v rest st acc hv hmk hmt, rfl, ?_, rfl⟩
          exact ⟨volEvents root rest, by simp [volEvents]⟩
        | true =>
          have hstep := mountVolumes_cons_ok w root v rest st acc hv hmk hmt
          rcases mountVolumes_spec w root rest
              { st with events := st.events ++
                  [Event.mkdirAll (filepathJoin root ((goSplitColon v).getD 1 "")),
                   Event.mountBind ((goSplitColon v).getD 0 "")
                     (filepathJoin root ((goSplitColon v).getD 1 ""))] }
              (acc ++ [(goSplitColon v).getD 1 ""]) with
            ⟨st2, m, heq, hev, hdef, hm⟩ | ⟨st2, l, pre, heq, hev, hpre, hdef⟩
          · refine Or.inl ⟨st2, m, by rw [hstep, heq], ?_, hdef, ?_⟩
            · rw [hev]
              simp [volEvents]
            · rw [hm]
              simp [mountedTargets]
          · refine Or.inr ⟨st2, l,
              Event.mkdirAll (filepathJoin root ((goSplitColon v).getD 1 "")) ::
              Event.mountBind ((goSplitColon v).getD 0 "")
                (filepathJoin root ((goSplitColon v).getD 1 "")) :: pre,
              by rw [hstep, heq], ?_, ?_, hdef⟩
            · rw [hev]
              simp
            · have hveq : volEvents root (v :: rest) =
                  Event.mkdirAll (filepathJoin root ((goSplitColon v).getD 1 "")) ::
                  Event.mountBind ((goSplitColon v).getD 0 "")
                    (filepathJoin root ((goSplitColon v).getD 1 "")) ::
                  volEvents root rest := rfl
              rw [hveq]
              exact List.cons_prefix_cons.mpr ⟨rfl, List.cons_prefix_cons.mpr ⟨rfl, hpre⟩⟩
    · refine Or.inr ⟨st, "invalid volume mapping: " ++ v, [],
        mountVolumes_cons_badfmt w root v rest st acc hv, by simp, List.nil_prefix, rfl⟩

theorem childSetup_ok (w : World) (volumes : List String) (hok : WorldOk w)
    (hvols : ∀ v ∈ volumes, (goSplitColon v).length = 2) :
    childSetup w volumes =
      .ok { events := setupEvents w volumes, deferred := deferredOf volumes } := by
  obtain ⟨hset, hmk, htar, hmt, hproc, hpiv, hchd, hexe⟩ := hok
  have e1 : bstep (w.sethostnameOk (containerId w)) (.sethostname (containerId w))
      "set hostname" { events := [], deferred := [] } =
      .ok { events := [Event.sethostname (containerId w)], deferred := [] } := by
    rw [hset]; rfl
  have e5 : ∀ st : BootState, bstep w.procMountOk (.mountProc "/proc") "mount procfs" st =
      .ok { st with events := st.events ++ [Event.mountProc "/proc"] } := by
    intro st; rw [hproc]; rfl
  simp only [childSetup, e1, unzip_ok w (rootfsDirOf w) rootFsTarball (hmk _) (htar _ _),
    mountVolumes_ok w (rootfsDirOf w) hmk hmt volumes hvols,
    pivotRoot_ok w (rootfsDirOf w) (hmt _ _) (hmk _) hpiv hchd, e5, registerDefer]
  simp [setupEvents, deferredOf, pivotEvents]

theorem childSetup_spec (w : World) (volumes : List String) :
    (∃ st, childSetup w volumes = .ok st ∧ st.events = setupEvents w volumes ∧
        st.deferred = deferredOf volumes) ∨
    (∃ st l, childSetup w volumes = .error (st, l) ∧ st.events <+: setupEvents w volumes) := by
  cases hs : w.sethostnameOk (containerId w) with
  | false =>
    have herr : childSetup w volumes =
        .error ({ events := [Event.sethostname (containerId w)], deferred := [] },
                "set hostname") := by
      simp only [childSetup, bstep, hs]
      rfl
    exact Or.inr ⟨_, _, herr, ⟨_, rfl⟩⟩
  | true =>
    have e1 : bstep (w.sethostnameOk (containerId w)) (.sethostname (containerId w))
        "set hostname" { events := [], deferred := [] } =
        .ok { events := [Event.sethostname (containerId w)], deferred := [] } := by
      rw [hs]; rfl
    rcases unzip_spec w (rootfsDirOf w) rootFsTarball
        { events := [Event.sethostname (containerId w)], deferred := [] } with
      ⟨st2, h2, hev2, hdef2⟩ | ⟨st2, l2, pre2, h2, hev2, hpre2, hdef2⟩
    · rcases mountVolumes_spec w (rootfsDirOf w) volumes st2 [] with
        ⟨st3, m3, h3, hev3, hdef3, hm3⟩ | ⟨st3, l3, pre3, h3, hev3, hpre3, hdef3⟩
      · rcases pivotRoot_spec w (rootfsDirOf w) (registerDefer (m3.map Event.unmount) st3) with
          ⟨st4, h4, hev4, hdef4⟩ | ⟨st4, l4, pre4, h4, hev4, hpre4, hdef4⟩
        · have hreg : (registerDefer (m3.map Event.unmount) st3).events = st3.events := rfl
          cases hp : w.procMountOk with
          | false =>
            have e5f : bstep w.procMountOk (.mountProc "/proc") "mount procfs" st4 =
                .error ({ st4 with events := st4.events ++ [Event.mountProc "/proc"] },
                        "mount procfs") := by
              rw [hp]; rfl
            have herr : childSetup w volumes =
                .error ({ st4 with events := st4.events ++ [Event.mountProc "/proc"] },
                        "mount procfs") := by
              simp only [childSetup, e1, h2, h3, h4, e5f]
            refine Or.inr ⟨_, _, herr, ?_⟩
            show st4.events ++ [Event.mountProc "/proc"] <+: setupEvents w volumes
            rw [hev4, hreg, hev3, hev2]
            simp [setupEvents, List.append_assoc]
          | true =>
            have e5 : bstep w.procMountOk (.mountProc "/proc") "mount procfs" st4 =
                .ok { st4 with events := st4.events ++ [Event.mountProc "/proc"] } := by
              rw [hp]; rfl
            have hok : childSetup w volumes =
                .ok (registerDefer [Event.unmount "/proc"]
                  { st4 with events := st4.events ++ [Event.mountProc "/proc"] }) := by
              simp only [childSetup, e1, h2, h3, h4, e5]
            refine Or.inl ⟨_, hok, ?_, ?_⟩
            · show st4.events ++ [Event.mountProc "/proc"] = setupEvents w volumes
              rw [hev4, hreg, hev3, hev2]
              simp [setupEvents, List.append_assoc]
            · show Event.unmount "/proc" :: st4.deferred = deferredOf volumes
              rw [hdef4]
              have hregd : (registerDefer (m3.map Event.unmount) st3).deferred =
                  m3.map Event.unmount ++ st3.deferred := rfl
              rw [hregd, hdef3, hdef2, hm3]
              simp [deferredOf]
        · have herr : childSetup w volumes = .error (st4, l4) := by
            simp only [childSetup, e1, h2, h3, h4]
          have hreg : (registerDefer (m3.map Event.unmount) st3).events = st3.events := rfl
          refine Or.inr ⟨_, _, herr, ?_⟩
          rw [hev4, hreg, hev3, hev2]
          simp only [setupEvents, List.append_assoc, List.cons_append, List.nil_append,
            List.cons_prefix_cons, true_and]
          exact prefix_append_mono _ (hpre4.trans (List.prefix_append _ _))
      · have herr : childSetup w volumes = .error (st3, l3) := by
          simp only [childSetup, e1, h2, h3]
        refine Or.inr ⟨_, _, herr, ?_⟩
        rw [hev3, hev2]
        simp only [setupEvents, List.append_assoc, List.cons_append, List.nil_append,
          List.cons_prefix_cons, true_and]
        exact hpre3.trans (List.prefix_append _ _)
    · have herr : childSetup w volumes = .error (st2, l2) := by
        simp only [childSetup, e1, h2]
      refine Or.inr ⟨_, _, herr, ?_⟩
      rw [hev2]
      simp only [setupEvents, List.append_assoc, List.cons_append, List.nil_append,
        List.cons_prefix_cons, true_and]
      exact hpre2.trans ⟨volEvents (rootfsDirOf w) volumes ++
        (pivotEvents (rootfsDirOf w) ++ [Event.mountProc "/proc"]), rfl⟩

/-! ## Run-level characterizations -/

/-- A successful child invocation: the canonical bootstrap trace followed by
spawning the user's command `args[0]` with `args[1:]` and exiting with its
exit code; the deferred unmounts stay registered but unexecuted. -/
theorem run_child_ok (w : World) (a0 : String) (rest volumes : List String) (hok : WorldOk w)
    (hvols : ∀ v ∈ volumes, (goSplitColon v).length = 2) :
    run w (a0 :: rest) volumes true =
      { events := setupEvents w volumes ++ [.spawnWait a0 rest],
        stderr := runErrLines (w.spawn a0 rest),
        deferred := deferredOf volumes,
        procAttr := none,
        outcome := .exit (processStateExitCode (w.spawn a0 rest)) } := by
  simp only [run, childSetup_ok w volumes hok hvols]
  rfl

/-- A parent (non-child) invocation re-executes the program with the
`_child` marker, the re-serialized volume arguments and the original args,
under the clone/unshare flags, and exits with the child's exit code. -/
theorem run_parent (w : World) (a0 : String) (rest volumes : List String)
    (hexec : w.execOk = true) :
    run w (a0 :: rest) volumes false =
      { events := [.spawnWait w.executablePath
          ("_child" :: (volumes.map (fun v => "-v=" ++ v)) ++ (a0 :: rest))],
        stderr := runErrLines (w.spawn w.executablePath
          ("_child" :: (volumes.map (fun v => "-v=" ++ v)) ++ (a0 :: rest))),
        deferred := [],
        procAttr := some { cloneflags := CLONE_NEWUTS ||| CLONE_NEWPID ||| CLONE_NEWNS,
                           unshareflags := CLONE_NEWNS },
        outcome := .exit (processStateExitCode (w.spawn w.executablePath
          ("_child" :: (volumes.map (fun v => "-v=" ++ v)) ++ (a0 :: rest)))) } := by
  simp only [run, hexec]
  rfl

/-! ## Shape of the canonical trace -/

theorem volEvents_shape (root : String) :
    ∀ (vols : List String) (e : Event), e ∈ volEvents root vols →
      (∃ p, e = .mkdirAll p) ∨ (∃ s t, e = .mountBind s t)
  | [], e, h => by simp [volEvents] at h
  | v :: rest, e, h => by
    rcases List.mem_cons.mp h with rfl | h
    · exact Or.inl ⟨_, rfl⟩
    · rcases List.mem_cons.mp h with rfl | h
      · exact Or.inr ⟨_, _, rfl⟩
      · exact volEvents_shape root rest e h

/-- A Bool classifier for spawn events. -/
def isSpawnWaitEvt : Event → Bool
  | .spawnWait _ _ => true
  | _ => false

theorem not_mem_of_filter_nil {p : Event → Bool} {l : List Event} (hf : l.filter p = [])
    {e : Event} (he : p e = true) : e ∉ l := by
  intro h
  have hm := List.mem_filter.mpr ⟨h, he⟩
  rw [hf] at hm
  exact List.not_mem_nil _ hm

theorem volEvents_filter_spawn (root : String) :
    ∀ vols : List String, (volEvents root vols).filter isSpawnWaitEvt = []
  | [] => rfl
  | v :: rest => by
    simp [volEvents, List.filter, isSpawnWaitEvt, volEvents_filter_spawn root rest]

theorem volEvents_filter_exec (root : String) :
    ∀ vols : List String, (volEvents root vols).filter isExecReplaceEvt = []
  | [] => rfl
  | v :: rest => by
    simp [volEvents, List.filter, isExecReplaceEvt, volEvents_filter_exec root rest]

theorem setupEvents_filter_spawn (w : World) (vols : List String) :
    (setupEvents w vols).filter isSpawnWaitEvt = [] := by
  simp [setupEvents, pivotEvents, List.filter_append, List.filter, isSpawnWaitEvt,
    volEvents_filter_spawn]

theorem setupEvents_filter_exec (w : World) (vols : List String) :
    (setupEvents w vols).filter isExecReplaceEvt = [] := by
  simp [setupEvents, pivotEvents, List.filter_append, List.filter, isExecReplaceEvt,
    volEvents_filter_exec]

theorem setupEvents_no_spawn (w : World) (vols : List String) (n : String) (a : List String) :
    Event.spawnWait n a ∉ setupEvents w vols :=
  not_mem_of_filter_nil (setupEvents_filter_spawn w vols) rfl

theorem setupEvents_no_exec (w : World) (vols : List String) (n : String) (a : List String) :
    Event.execReplace n a ∉ setupEvents w vols :=
  not_mem_of_filter_nil (setupEvents_filter_exec w vols) rfl

/-- No invocation of `run`, in any environment, ever performs exec-style
process-image substitution: the final command is always a spawned child. -/
theorem run_no_execReplace (w : World) (args volumes : List String) (isChild : Bool)
    (n : String) (a : List String) :
    Event.execReplace n a ∉ (run w args volumes isChild).events := by
  cases args with
  | nil => simp [run]
  | cons a0 rest =>
    cases isChild with
    | true =>
      rcases childSetup_spec w volumes with ⟨st, hcs, hev, _⟩ | ⟨st, l, hcs, hpre⟩
      · simp only [run, hcs]
        intro h
        rcases List.mem_append.mp h with h | h
        · rw [hev] at h
          exact setupEvents_no_exec w volumes n a h
        · rcases List.mem_singleton.mp h with h
          exact Event.noConfusion h
      · simp only [run, hcs]
        intro h
        exact setupEvents_no_exec w volumes n a (hpre.mem h)
    | false =>
      cases hexec : w.execOk with
      | false => simp [run, hexec]
      | true =>
        simp only [run, hexec]
        intro h
        rcases List.mem_singleton.mp h with h
        exact Event.noConfusion h

theorem volEvents_filter_bind (root : String) :
    ∀ vols : List String, (volEvents root vols).filter isBindMountEvt =
      vols.map (fun v => Event.mountBind ((goSplitColon v).getD 0 "")
        (filepathJoin root ((goSplitColon v).getD 1 "")))
  | [] => rfl
  | v :: rest => by
    simp [volEvents, isBindMountEvt, List.filter, volEvents_filter_bind root rest]

/-! ## Argument-splitting lemmas -/

theorem splitVolumeArgs_args_clean :
    ∀ (argv : List String), ∀ a ∈ (splitVolumeArgs argv).2, strTrimV a = none
  | [] => by simp [splitVolumeArgs]
  | x :: rest => by
    intro a ha
    cases hx : strTrimV x with
    | some v =>
      simp only [splitVolumeArgs, hx] at ha
      exact splitVolumeArgs_args_clean rest a ha
    | none =>
      simp only [splitVolumeArgs, hx] at ha
      rcases List.mem_cons.mp ha with rfl | ha
      · exact hx
      · exact splitVolumeArgs_args_clean rest a ha

theorem splitVolumeArgs_vols_complete :
    ∀ (argv : List String) (a : String), a ∈ argv →
      ∀ v, strTrimV a = some v → v ∈ (splitVolumeArgs argv).1
  | [], a, ha => by simp at ha
  | x :: rest, a, ha => by
    intro v hv
    rcases List.mem_cons.mp ha with rfl | ha
    · simp only [splitVolumeArgs, hv]
      exact List.mem_cons_self _ _
    · cases hx : strTrimV x with
      | some u =>
        simp only [splitVolumeArgs, hx]
        exact List.mem_cons_of_mem _ (splitVolumeArgs_vols_complete rest a ha v hv)
      | none =>
        simp only [splitVolumeArgs, hx]
        exact splitVolumeArgs_vols_complete rest a ha v hv

/-! ## Identity-generation lemmas -/

theorem availableRunes_length : availableRunes.length = 62 := by decide

theorem availableRunes_alphanum : ∀ c ∈ availableRunes, c.isAlphanum = true := by decide

theorem mem_availableRunes_getD (j : Fin 62) :
    availableRunes.getD (j : Nat) 'a' ∈ availableRunes := by
  have h : (j : Nat) < availableRunes.length := by
    rw [availableRunes_length]
    exact j.isLt
  rw [List.getD_eq_getElem?_getD, List.getElem?_eq_getElem h]
  exact List.getElem_mem h

theorem containerId_data (w : World) :
    (containerId w).data =
      'b' :: '-' :: (List.range 16).map (fun i => availableRunes.getD ((w.rng i) : Nat) 'a') := by
  have h16 : ¬ ((16 : Int) < 1) := by decide
  have hb : "b-".data = ['b', '-'] := rfl
  simp [containerId, randomString, h16, String.data_append, hb]

/-! ## Claim theorems -/

/-- C1 counterexample: the claim's "non-zero status distinct from a
child-reported code" is false of the program.  When the user's command
cannot be started, the child calls `os.Exit(cmd.ProcessState.ExitCode())`
= `os.Exit(-1)`, which the kernel observes as status 255; a child whose
user command itself exits 255 yields the identical observed status, and
the launcher (whose spawned re-executed child then reports 255) relays 255
through the same propagation path in both cases — the startup-failure
status cannot be told apart from a child-reported code. -/
theorem C1_cex :
    (run (okWorld (fun _ _ => SpawnResult.startFailed "fork slash exec: file not found"))
        ["/missing"] [] true).outcome = Outcome.exit (-1) ∧
    observedStatus
      (run (okWorld (fun _ _ => SpawnResult.startFailed "fork slash exec: file not found"))
        ["/missing"] [] true).outcome = 255 ∧
    (run (okWorld (fun _ _ => SpawnResult.exited 255)) ["/bin/sh"] [] true).outcome
      = Outcome.exit 255 ∧
    observedStatus
      (run (okWorld (fun _ _ => SpawnResult.exited 255)) ["/bin/sh"] [] true).outcome = 255 ∧
    (run (okWorld (fun _ _ => SpawnResult.exited 255)) ["/missing"] [] false).outcome
      = Outcome.exit 255 ∧
    observedStatus
      (run (okWorld (fun _ _ => SpawnResult.exited 255)) ["/missing"] [] false).outcome
      = 255 := by
  decide

/-- C1 amended: when the user's command starts and terminates with exit
code `c` (0 ≤ c ≤ 255), the child exits with `c` and the launcher (whose
spawned child is the re-executed program) exits with its child's code, so
the observed exit status of the whole invocation is exactly `c`; when the
command cannot be started at all, `cmd.Run`'s error is printed to standard
error and the process calls `os.Exit(-1)` (`ProcessState.ExitCode()` of a
nil state), whose kernel-observed status is 255 — non-zero, but NOT
distinct from child-reported codes: it coincides with the observed status
of a child that reports code 255 itself. -/
theorem C1_exit_status_propagation (w : World) (args volumes : List String) (c : Nat)
    (msg : String) (hargs : args ≠ []) (hok : WorldOk w)
    (hvols : ∀ v ∈ volumes, (goSplitColon v).length = 2) (hc : c < 256) :
    ((∀ n a, w.spawn n a = SpawnResult.exited c) →
        (run w args volumes true).outcome = Outcome.exit (c : Int) ∧
        observedStatus (run w args volumes true).outcome = c ∧
        (run w args volumes false).outcome = Outcome.exit (c : Int) ∧
        observedStatus (run w args volumes false).outcome = c) ∧
    ((∀ n a, w.spawn n a = SpawnResult.startFailed msg) →
        (run w args volumes true).stderr = [msg] ∧
        (run w args volumes true).outcome = Outcome.exit (-1) ∧
        (run w args volumes false).stderr = [msg] ∧
        (run w args volumes false).outcome = Outcome.exit (-1) ∧
        observedStatus (run w args volumes true).outcome = 255 ∧
        observedStatus (run w args volumes true).outcome ≠ 0 ∧
        observedStatus (run w args volumes true).outcome =
          observedStatus (Outcome.exit ((255 : Nat) : Int))) := by
  obtain ⟨a0, rest, rfl⟩ : ∃ a0 rest, args = a0 :: rest := by
    cases args with
    | nil => exact absurd rfl hargs
    | cons a r => exact ⟨a, r, rfl⟩
  have hexec : w.execOk = true := hok.2.2.2.2.2.2.2
  constructor
  · intro hs
    rw [run_child_ok w a0 rest volumes hok hvols, run_parent w a0 rest volumes hexec]
    refine ⟨by simp [hs, processStateExitCode], ?_, by simp [hs, processStateExitCode], ?_⟩
    · simp [hs, processStateExitCode, observedStatus]
      omega
    · simp [hs, processStateExitCode, observedStatus]
      omega
  · intro hs
    rw [run_child_ok w a0 rest volumes hok hvols, run_parent w a0 rest volumes hexec]
    refine ⟨by simp [hs, runErrLines], by simp [hs, processStateExitCode],
      by simp [hs, runErrLines], by simp [hs, processStateExitCode], ?_, ?_, ?_⟩
    · simp [hs, processStateExitCode, observedStatus]
    · simp [hs, processStateExitCode, observedStatus]
    · simp [hs, processStateExitCode, observedStatus]

theorem C1_exit_status_propagation_witness :
    ((run (okWorld (fun _ _ => SpawnResult.exited 1)) ["/bin/false"] [] true).outcome
        = Outcome.exit ((1 : Nat) : Int) ∧
      observedStatus
        (run (okWorld (fun _ _ => SpawnResult.exited 1)) ["/bin/false"] [] true).outcome = 1 ∧
      (run (okWorld (fun _ _ => SpawnResult.exited 1)) ["/bin/false"] [] false).outcome
        = Outcome.exit ((1 : Nat) : Int) ∧
      observedStatus
        (run (okWorld (fun _ _ => SpawnResult.exited 1)) ["/bin/false"] [] false).outcome = 1) :=
  (C1_exit_status_propagation (okWorld (fun _ _ => SpawnResult.exited 1)) ["/bin/false"] [] 1 "m"
    (by decide) (okWorld_ok _) (by simp) (by decide)).1 (fun _ _ => rfl)

/-- C2 counterexample: the claim "at least one malformed mapping implies a
fatal error before any volume bind-mount syscall, zero mount calls" is
false on two concrete inputs: (a) with volumes ["/hosta:/a", "bad"] the
well-formed first mapping is bind-mounted (one mount call) before the
malformed second one is detected; (b) the string ":" is malformed per the
claim (its two components are empty) yet the code accepts it — the run is
not validation-fatal and performs a volume bind-mount syscall. -/
theorem C2_cex :
    ((run (okWorld (fun _ _ => SpawnResult.exited 0)) ["/bin/true"] ["/hosta:/a", "bad"] true).outcome
        = Outcome.fatal "invalid volume mapping: bad" ∧
      ((run (okWorld (fun _ _ => SpawnResult.exited 0)) ["/bin/true"] ["/hosta:/a", "bad"] true).events.filter
          isBindMountEvt).length = 1) ∧
    (Event.mountBind "" "containers/b-aaaaaaaaaaaaaaaa"
        ∈ (run (okWorld (fun _ _ => SpawnResult.exited 0)) ["/bin/true"] [":"] true).events ∧
      (run (okWorld (fun _ _ => SpawnResult.exited 0)) ["/bin/true"] [":"] true).outcome
        = Outcome.exit 0) := by
  decide

/-- C2 amended: volume mappings are validated one at a time as the loop
walks the list; a string that does not split into exactly two
colon-separated components (emptiness of the components is not checked)
causes a fatal error before its own mkdir/mount, but the bind mounts of the
well-formed mappings preceding it in the list have already been performed —
exactly one mount syscall per preceding mapping and none afterwards. -/
theorem C2_volume_validation (w : World) (args good vrest : List String) (bad : String)
    (hargs : args ≠ []) (hok : WorldOk w)
    (hgood : ∀ v ∈ good, (goSplitColon v).length = 2)
    (hbad : (goSplitColon bad).length ≠ 2) :
    (run w args (good ++ bad :: vrest) true).outcome =
      Outcome.fatal ("invalid volume mapping: " ++ bad) ∧
    (run w args (good ++ bad :: vrest) true).events =
      Event.sethostname (containerId w) :: Event.mkdirAll (rootfsDirOf w) ::
      Event.tarExtract rootFsTarball (rootfsDirOf w) :: volEvents (rootfsDirOf w) good ∧
    ((run w args (good ++ bad :: vrest) true).events.filter isBindMountEvt).length =
      good.length := by
  obtain ⟨a0, arest, rfl⟩ : ∃ a0 arest, args = a0 :: arest := by
    cases args with
    | nil => exact absurd rfl hargs
    | cons a r => exact ⟨a, r, rfl⟩
  obtain ⟨hset, hmk, htar, hmt, hproc, hpiv, hchd, hexe⟩ := hok
  have e1 : bstep (w.sethostnameOk (containerId w)) (.sethostname (containerId w))
      "set hostname" { events := [], deferred := [] } =
      .ok { events := [Event.sethostname (containerId w)], deferred := [] } := by
    rw [hset]; rfl
  have hcs : childSetup w (good ++ bad :: vrest) =
      .error ({ events := Event.sethostname (containerId w) ::
          Event.mkdirAll (rootfsDirOf w) ::
          Event.tarExtract rootFsTarball (rootfsDirOf w) ::
          volEvents (rootfsDirOf w) good, deferred := [] },
        "invalid volume mapping: " ++ bad) := by
    simp only [childSetup, e1,
      unzip_ok w (rootfsDirOf w) rootFsTarball (hmk _) (htar _ _),
      mountVolumes_bad w (rootfsDirOf w) hmk hmt bad hbad good hgood vrest]
    simp
  have hrun : run w (a0 :: arest) (good ++ bad :: vrest) true =
      { events := Event.sethostname (containerId w) ::
          Event.mkdirAll (rootfsDirOf w) ::
          Event.tarExtract rootFsTarball (rootfsDirOf w) ::
          volEvents (rootfsDirOf w) good,
        stderr := [], deferred := [], procAttr := none,
        outcome := Outcome.fatal ("invalid volume mapping: " ++ bad) } := by
    simp only [run, hcs]
    rfl
  rw [hrun]
  refine ⟨rfl, rfl, ?_⟩
  simp [List.filter, isBindMountEvt, volEvents_filter_bind]

theorem C2_volume_validation_witness :
    (run (okWorld (fun _ _ => SpawnResult.exited 0)) ["sh"] (["/h:/d"] ++ "x" :: []) true).outcome =
      Outcome.fatal ("invalid volume mapping: " ++ "x") ∧
    (run (okWorld (fun _ _ => SpawnResult.exited 0)) ["sh"] (["/h:/d"] ++ "x" :: []) true).events =
      Event.sethostname (containerId (okWorld (fun _ _ => SpawnResult.exited 0))) ::
      Event.mkdirAll (rootfsDirOf (okWorld (fun _ _ => SpawnResult.exited 0))) ::
      Event.tarExtract rootFsTarball (rootfsDirOf (okWorld (fun _ _ => SpawnResult.exited 0))) ::
      volEvents (rootfsDirOf (okWorld (fun _ _ => SpawnResult.exited 0))) ["/h:/d"] ∧
    ((run (okWorld (fun _ _ => SpawnResult.exited 0)) ["sh"] (["/h:/d"] ++ "x" :: []) true).events.filter
        isBindMountEvt).length = (["/h:/d"] : List String).length :=
  C2_volume_validation (okWorld (fun _ _ => SpawnResult.exited 0)) ["sh"] ["/h:/d"] [] "x"
    (by decide) (okWorld_ok _) (by decide) (by decide)

/-- C3: evaluating the code at the failing input — a successful `_child`
invocation with one volume mapping.  The deferred-unmount closures for the
volume and for /proc are registered (`deferred`), but the invocation ends
in `os.Exit` (src/main.go:324), which does not run deferred functions in
Go, so zero unmount operations appear in the executed trace, not the one
per volume that the claim requires. -/
theorem C3_no_unmounts_executed :
    (run (okWorld (fun _ _ => SpawnResult.exited 0)) ["/bin/true"] ["/hosta:/a"] true).outcome
      = Outcome.exit 0 ∧
    ((run (okWorld (fun _ _ => SpawnResult.exited 0)) ["/bin/true"] ["/hosta:/a"] true).events.filter
        isUnmountEvt) = [] ∧
    (run (okWorld (fun _ _ => SpawnResult.exited 0)) ["/bin/true"] ["/hosta:/a"] true).deferred
      = [Event.unmount "/proc", Event.unmount "/a"] := by
  decide

/-- C4 counterexample: at the concrete input `_child /bin/sh`, the final
step of the bootstrap is a `spawnWait` event — the command is run as a
separate child process and waited for (`exec.Command` + `cmd.Run`,
src/main.go:244/319), after which the bootstrap process itself exits —
and no exec-style image-substitution event occurs anywhere in the trace. -/
theorem C4_cex :
    (run (okWorld (fun _ _ => SpawnResult.exited 0)) ["/bin/sh"] [] true).events.getLast?
        = some (Event.spawnWait "/bin/sh" []) ∧
    ((run (okWorld (fun _ _ => SpawnResult.exited 0)) ["/bin/sh"] [] true).events.filter
        isExecReplaceEvt) = [] ∧
    (run (okWorld (fun _ _ => SpawnResult.exited 0)) ["/bin/sh"] [] true).outcome
        = Outcome.exit 0 := by
  decide

/-- C4 amended: in the final step the child does not replace its own
process image; it spawns the user's requested command as a further child
process (inheriting the namespaces, switched root and mounts), waits for
it, and then exits with that command's exit code.  No `run` invocation in
any environment ever performs exec-style substitution. -/
theorem C4_spawn_wait_not_exec (w : World) (args volumes : List String)
    (hargs : args ≠ []) (hok : WorldOk w)
    (hvols : ∀ v ∈ volumes, (goSplitColon v).length = 2) :
    (run w args volumes true).events.getLast? =
      some (Event.spawnWait (args.headD "") args.tail) ∧
    (run w args volumes true).outcome =
      Outcome.exit (processStateExitCode (w.spawn (args.headD "") args.tail)) ∧
    (∀ w2 args2 volumes2 b n a, Event.execReplace n a ∉ (run w2 args2 volumes2 b).events) := by
  obtain ⟨a0, rest, rfl⟩ : ∃ a0 rest, args = a0 :: rest := by
    cases args with
    | nil => exact absurd rfl hargs
    | cons a r => exact ⟨a, r, rfl⟩
  rw [run_child_ok w a0 rest volumes hok hvols]
  refine ⟨?_, by simp, fun w2 args2 volumes2 b n a => run_no_execReplace w2 args2 volumes2 b n a⟩
  simp [List.getLast?_concat]

theorem C4_spawn_wait_not_exec_witness :
    (run (okWorld (fun _ _ => SpawnResult.exited 7)) ["/bin/sh"] [] true).events.getLast? =
      some (Event.spawnWait (["/bin/sh"].headD "") ["/bin/sh"].tail) ∧
    (run (okWorld (fun _ _ => SpawnResult.exited 7)) ["/bin/sh"] [] true).outcome =
      Outcome.exit (processStateExitCode
        ((okWorld (fun _ _ => SpawnResult.exited 7)).spawn (["/bin/sh"].headD "") ["/bin/sh"].tail)) ∧
    (∀ w2 args2 volumes2 b n a, Event.execReplace n a ∉ (run w2 args2 volumes2 b).events) :=
  C4_spawn_wait_not_exec (okWorld (fun _ _ => SpawnResult.exited 7)) ["/bin/sh"] []
    (by decide) (okWorld_ok _) (by simp)

/-- C5: the child bootstrap executes in the strict source order — hostname,
rootfs extraction into containers/<identity>, volume bind mounts, root
switch, proc mount, and only then the user command — `setupEvents` spells
out this order.  Every trace of a child invocation is a prefix of the
canonical ordered trace (so no step ever starts before all earlier steps
have completed: a failure truncates the trace at the failing syscall), and
a trace that reaches the final `os.Exit` is exactly the canonical trace. -/
theorem C5_bootstrap_order (w : World) (args volumes : List String) (hargs : args ≠ []) :
    (run w args volumes true).events <+:
      setupEvents w volumes ++ [Event.spawnWait (args.headD "") args.tail] ∧
    ∀ c, (run w args volumes true).outcome = Outcome.exit c →
      (run w args volumes true).events =
        setupEvents w volumes ++ [Event.spawnWait (args.headD "") args.tail] := by
  obtain ⟨a0, rest, rfl⟩ : ∃ a0 rest, args = a0 :: rest := by
    cases args with
    | nil => exact absurd rfl hargs
    | cons a r => exact ⟨a, r, rfl⟩
  simp only [List.headD_cons, List.tail_cons]
  rcases childSetup_spec w volumes with ⟨st, hcs, hev, hdef⟩ | ⟨st, l, hcs, hpre⟩
  · have hrun : run w (a0 :: rest) volumes true =
        { events := st.events ++ [.spawnWait a0 rest],
          stderr := runErrLines (w.spawn a0 rest),
          deferred := st.deferred, procAttr := none,
          outcome := .exit (processStateExitCode (w.spawn a0 rest)) } := by
      simp only [run, hcs]
      rfl
    rw [hrun, hev]
    exact ⟨List.prefix_rfl, fun c _ => rfl⟩
  · have hrun : run w (a0 :: rest) volumes true =
        { events := st.events, stderr := [], deferred := st.deferred, procAttr := none,
          outcome := .fatal l } := by
      simp only [run, hcs]
      rfl
    rw [hrun]
    refine ⟨hpre.trans (List.prefix_append _ _), ?_⟩
    intro c hc
    exact Outcome.noConfusion hc

theorem C5_bootstrap_order_witness :
    (run (okWorld (fun _ _ => SpawnResult.exited 0)) ["/bin/sh"] ["/h:/d"] true).events <+:
      setupEvents (okWorld (fun _ _ => SpawnResult.exited 0)) ["/h:/d"] ++
        [Event.spawnWait (["/bin/sh"].headD "") ["/bin/sh"].tail] ∧
    ∀ c, (run (okWorld (fun _ _ => SpawnResult.exited 0)) ["/bin/sh"] ["/h:/d"] true).outcome =
        Outcome.exit c →
      (run (okWorld (fun _ _ => SpawnResult.exited 0)) ["/bin/sh"] ["/h:/d"] true).events =
        setupEvents (okWorld (fun _ _ => SpawnResult.exited 0)) ["/h:/d"] ++
          [Event.spawnWait (["/bin/sh"].headD "") ["/bin/sh"].tail] :=
  C5_bootstrap_order (okWorld (fun _ _ => SpawnResult.exited 0)) ["/bin/sh"] ["/h:/d"]
    (by decide)

/-- C6: `pivotRoot(newRoot)` performs exactly four steps in order — the
recursive self bind-mount of newRoot, creation of newRoot/.put_old, the
pivot_root syscall moving the old root under .put_old, and chdir to "/" —
and the failure of each step is fatal, aborting before any later step. -/
theorem C6_pivot_root_steps (w : World) (newRoot : String) (st : BootState) :
    (w.mountOk newRoot newRoot = true →
      w.mkdirOk (filepathJoin newRoot ".put_old") = true →
      w.pivotOk = true → w.chdirOk = true →
      pivotRoot w newRoot st = .ok { st with events := st.events ++
        [Event.mountBind newRoot newRoot,
         Event.mkdirAll (filepathJoin newRoot ".put_old"),
         Event.pivotRootCall newRoot (filepathJoin newRoot ".put_old"),
         Event.chdir "/"] }) ∧
    (w.mountOk newRoot newRoot = false →
      pivotRoot w newRoot st = .error ({ st with events := st.events ++
        [Event.mountBind newRoot newRoot] }, "pivotRoot(): syscall.Mount")) ∧
    (w.mountOk newRoot newRoot = true →
      w.mkdirOk (filepathJoin newRoot ".put_old") = false →
      pivotRoot w newRoot st = .error ({ st with events := st.events ++
        [Event.mountBind newRoot newRoot,
         Event.mkdirAll (filepathJoin newRoot ".put_old")] },
        "pivotRoot(): putold os.MkdirAll")) ∧
    (w.mountOk newRoot newRoot = true →
      w.mkdirOk (filepathJoin newRoot ".put_old") = true → w.pivotOk = false →
      pivotRoot w newRoot st = .error ({ st with events := st.events ++
        [Event.mountBind newRoot newRoot,
         Event.mkdirAll (filepathJoin newRoot ".put_old"),
         Event.pivotRootCall newRoot (filepathJoin newRoot ".put_old")] },
        "pivotRoot(): pivot_root")) ∧
    (w.mountOk newRoot newRoot = true →
      w.mkdirOk (filepathJoin newRoot ".put_old") = true → w.pivotOk = true →
      w.chdirOk = false →
      pivotRoot w newRoot st = .error ({ st with events := st.events ++
        [Event.mountBind newRoot newRoot,
         Event.mkdirAll (filepathJoin newRoot ".put_old"),
         Event.pivotRootCall newRoot (filepathJoin newRoot ".put_old"),
         Event.chdir "/"] }, "chdir")) := by
  refine ⟨?_, ?_, ?_, ?_, ?_⟩
  · intro h1 h2 h3 h4
    exact pivotRoot_ok w newRoot h1 h2 h3 h4 st
  · intro h1
    simp [pivotRoot, bstep, h1]
  · intro h1 h2
    simp [pivotRoot, bstep, h1, h2]
  · intro h1 h2 h3
    simp [pivotRoot, bstep, h1, h2, h3]
  · intro h1 h2 h3 h4
    simp [pivotRoot, bstep, h1, h2, h3, h4]

theorem C6_pivot_root_steps_witness :
    pivotRoot (okWorld (fun _ _ => SpawnResult.exited 0)) "containers/x"
        { events := [], deferred := [] } =
      .ok { events := [] ++
          [Event.mountBind "containers/x" "containers/x",
           Event.mkdirAll (filepathJoin "containers/x" ".put_old"),
           Event.pivotRootCall "containers/x" (filepathJoin "containers/x" ".put_old"),
           Event.chdir "/"], deferred := [] } :=
  (C6_pivot_root_steps (okWorld (fun _ _ => SpawnResult.exited 0)) "containers/x"
    { events := [], deferred := [] }).1 rfl rfl rfl rfl

/-- C7: a non-child `run` creates the re-executed child with clone flags
CLONE_NEWUTS ||| CLONE_NEWPID ||| CLONE_NEWNS — containing exactly those
three namespace flags and no other CLONE_NEW* flag — and with unshare flag
CLONE_NEWNS, so the new mount namespace is not shared back with the host;
the child branch sets no process attributes. -/
theorem C7_clone_flags (w : World) (args volumes : List String) (hargs : args ≠ [])
    (hexec : w.execOk = true) :
    (run w args volumes false).procAttr =
      some { cloneflags := CLONE_NEWUTS ||| CLONE_NEWPID ||| CLONE_NEWNS,
             unshareflags := CLONE_NEWNS } ∧
    (CLONE_NEWUTS ||| CLONE_NEWPID ||| CLONE_NEWNS) &&& CLONE_NEWUTS = CLONE_NEWUTS ∧
    (CLONE_NEWUTS ||| CLONE_NEWPID ||| CLONE_NEWNS) &&& CLONE_NEWPID = CLONE_NEWPID ∧
    (CLONE_NEWUTS ||| CLONE_NEWPID ||| CLONE_NEWNS) &&& CLONE_NEWNS = CLONE_NEWNS ∧
    (CLONE_NEWUTS ||| CLONE_NEWPID ||| CLONE_NEWNS) &&&
      (CLONE_NEWIPC ||| CLONE_NEWUSER ||| CLONE_NEWNET ||| CLONE_NEWCGROUP |||
        CLONE_NEWTIME) = 0 ∧
    (run w args volumes true).procAttr = none := by
  obtain ⟨a0, rest, rfl⟩ : ∃ a0 rest, args = a0 :: rest := by
    cases args with
    | nil => exact absurd rfl hargs
    | cons a r => exact ⟨a, r, rfl⟩
  refine ⟨?_, by decide, by decide, by decide, by decide, ?_⟩
  · rw [run_parent w a0 rest volumes hexec]
  · rcases childSetup_spec w volumes with ⟨st, hcs, _, _⟩ | ⟨st, l, hcs, _⟩ <;>
      simp [run, hcs]

theorem C7_clone_flags_witness :
    (run (okWorld (fun _ _ => SpawnResult.exited 0)) ["echo"] [] false).procAttr =
      some { cloneflags := CLONE_NEWUTS ||| CLONE_NEWPID ||| CLONE_NEWNS,
             unshareflags := CLONE_NEWNS } ∧
    (CLONE_NEWUTS ||| CLONE_NEWPID ||| CLONE_NEWNS) &&& CLONE_NEWUTS = CLONE_NEWUTS ∧
    (CLONE_NEWUTS ||| CLONE_NEWPID ||| CLONE_NEWNS) &&& CLONE_NEWPID = CLONE_NEWPID ∧
    (CLONE_NEWUTS ||| CLONE_NEWPID ||| CLONE_NEWNS) &&& CLONE_NEWNS = CLONE_NEWNS ∧
    (CLONE_NEWUTS ||| CLONE_NEWPID ||| CLONE_NEWNS) &&&
      (CLONE_NEWIPC ||| CLONE_NEWUSER ||| CLONE_NEWNET ||| CLONE_NEWCGROUP |||
        CLONE_NEWTIME) = 0 ∧
    (run (okWorld (fun _ _ => SpawnResult.exited 0)) ["echo"] [] true).procAttr = none :=
  C7_clone_flags (okWorld (fun _ _ => SpawnResult.exited 0)) ["echo"] [] (by decide) rfl

/-- C8: for every environment, the generated container identity is the
two-character prefix "b-" followed by exactly 16 characters, each drawn
from the 62-character alphabet [a-zA-Z0-9] (every one alphanumeric). -/
theorem C8_container_identity (w : World) :
    (containerId w).data.take 2 = ['b', '-'] ∧
    ((containerId w).data.drop 2).length = 16 ∧
    ∀ c ∈ (containerId w).data.drop 2, c ∈ availableRunes ∧ c.isAlphanum = true := by
  rw [containerId_data]
  refine ⟨rfl, by simp, ?_⟩
  intro c hc
  simp only [List.drop_succ_cons, List.drop_zero] at hc
  rcases List.mem_map.mp hc with ⟨i, _, rfl⟩
  exact ⟨mem_availableRunes_getD _, availableRunes_alphanum _ (mem_availableRunes_getD _)⟩

theorem C8_container_identity_witness :
    (containerId (okWorld (fun _ _ => SpawnResult.exited 0))).data.take 2 = ['b', '-'] ∧
    ((containerId (okWorld (fun _ _ => SpawnResult.exited 0))).data.drop 2).length = 16 ∧
    ∀ c ∈ (containerId (okWorld (fun _ _ => SpawnResult.exited 0))).data.drop 2,
      c ∈ availableRunes ∧ c.isAlphanum = true :=
  C8_container_identity (okWorld (fun _ _ => SpawnResult.exited 0))

/-- C9: a `run` (or `_child`) invocation with an empty command list dies
with the fatal diagnostic immediately: its trace is empty — no hostname,
mount, pivot or spawn operation is attempted — no deferred call is
registered and no process attributes are set. -/
theorem C9_empty_args_fatal (w : World) (volumes : List String) (isChild : Bool) :
    (run w [] volumes isChild).events = [] ∧
    (run w [] volumes isChild).deferred = [] ∧
    (run w [] volumes isChild).procAttr = none ∧
    (run w [] volumes isChild).outcome = Outcome.fatal "at least 1 argument is required" :=
  ⟨rfl, rfl, rfl, rfl⟩

/-- C10: the argument filter of `main` consumes every argument starting
with "-v=" wherever it occurs: no remaining argument starts with "-v="
(`strTrimV a = none`), every "-v=" argument lands (stripped) in the volume
list, and consequently the argument vector handed to the user's command by
a child invocation never contains an argument starting with "-v=". -/
theorem C10_dash_v_consumed (w : World) (argv : List String) :
    (∀ a ∈ (splitVolumeArgs argv).2, strTrimV a = none) ∧
    (∀ a ∈ argv, ∀ v, strTrimV a = some v → v ∈ (splitVolumeArgs argv).1) ∧
    (∀ n cargs, Event.spawnWait n cargs ∈ (mainRunDispatch w true argv).events →
      ∀ a ∈ cargs, strTrimV a = none) := by
  refine ⟨splitVolumeArgs_args_clean argv,
    fun a ha v hv => splitVolumeArgs_vols_complete argv a ha v hv, ?_⟩
  intro n cargs hmem a ha
  cases hargs : (splitVolumeArgs argv).2 with
  | nil =>
    rw [mainRunDispatch, hargs] at hmem
    simp [run] at hmem
  | cons a0 rest =>
    rw [mainRunDispatch, hargs] at hmem
    rcases childSetup_spec w (splitVolumeArgs argv).1 with ⟨st, hcs, hev, _⟩ | ⟨st, l, hcs, hpre⟩
    · simp only [run, hcs] at hmem
      rcases List.mem_append.mp hmem with h | h
      · rw [hev] at h
        exact absurd h (setupEvents_no_spawn w _ n cargs)
      · have heq := List.mem_singleton.mp h
        have hcargs : cargs = rest := by
          injection heq
        subst hcargs
        exact splitVolumeArgs_args_clean argv a (by rw [hargs]; exact List.mem_cons_of_mem a0 ha)
    · simp only [run, hcs] at hmem
      exact absurd (hpre.mem hmem) (setupEvents_no_spawn w _ n cargs)

theorem C10_dash_v_consumed_witness :
    (∀ a ∈ (splitVolumeArgs ["-v=/a:/b", "echo", "-v=/c:/d", "hi"]).2, strTrimV a = none) ∧
    (∀ a ∈ ["-v=/a:/b", "echo", "-v=/c:/d", "hi"], ∀ v, strTrimV a = some v →
      v ∈ (splitVolumeArgs ["-v=/a:/b", "echo", "-v=/c:/d", "hi"]).1) ∧
    (∀ n cargs, Event.spawnWait n cargs ∈
        (mainRunDispatch (okWorld (fun _ _ => SpawnResult.exited 0)) true
          ["-v=/a:/b", "echo", "-v=/c:/d", "hi"]).events →
      ∀ a ∈ cargs, strTrimV a = none) :=
  C10_dash_v_consumed (okWorld (fun _ _ => SpawnResult.exited 0))
    ["-v=/a:/b", "echo", "-v=/c:/d", "hi"]

end Focker
